import Mathlib

/-!
Verification of the os2mo-tools MO client (`os2mo_tools/mo_api.py`).

The repository is a small synchronous HTTP client.  We embed it shallowly:
the remote service ("MO") is modelled as a pure function from request URLs
(and, where the code passes them separately, query parameters) to responses,
and every operation of the client is translated into a Lean function that
returns both its result and the ordered list of requests it issued.  All
state that the Python objects mutate (memoization caches, the defaultdict of
stored details) is threaded explicitly through a state record.
-/

namespace MoApi

/-- An HTTP GET request as issued by `Connector.mo_get`: the URL string the
code built, together with the keyword query parameters passed separately
(`mo_get(url, validity=...)`). -/
structure Request where
  url : String
  params : List (String × String)
deriving DecidableEq, Repr

/-- Response of a collection endpoint: the JSON object
`\x7btotal: ..., items: [...]\x7d` used by `get_ous` / `get_employees`. -/
structure PageResponse (α : Type) where
  total : Nat
  items : List α
deriving Repr

/-- Errors raised by the client.  `noOrganizationFound` models
`raise Exception('No organisation found in LoRa')` in `Connector._get_org`;
`attributeNotFound name` models
`raise AttributeError("No such attribute: ...")` in `MOData.__getattr__`. -/
inductive MOError where
  | noOrganizationFound
  | attributeNotFound (name : String)
deriving DecidableEq, Repr

/-- Python truthiness of the optional `root` argument of `get_ous`:
`if root: url += f"&root=..."`.  `None` and the empty string are falsy. -/
def rootSuffix : Option String → String
  | some r => if r = "" then "" else "&root=" ++ r
  | none => ""

/-- The `while start < total_employees` loop of `Connector.get_employees`
(and, structurally, the intended loop of `get_ous`): `offset` is the local
variable fixed to `1000` by the source.  Each iteration requests
`"\x7b\x7d?limit=\x7b\x7d&start=\x7b\x7d".format(base, 1000, start)`, yields the page's
`items`, and advances `start` by `1000`.  Returns (requests issued, items
yielded). -/
def paginate (server : String → PageResponse α) (base : String)
    (total start : Nat) : List String × List α :=
  if start < total then
    let url := base ++ "?limit=1000&start=" ++ toString start
    let rest := paginate server base total (start + 1000)
    (url :: rest.1, (server url).items ++ rest.2)
  else ([], [])
termination_by total - start
decreasing_by omega

/-- `Connector.get_employees`: probe `employee_url ++ "?limit=1"` for
`total`, then page through with `paginate`. -/
def get_employees (server : String → PageResponse α)
    (mo_url org_id : String) : List String × List α :=
  let employee_url := mo_url ++ "/o/" ++ org_id ++ "/e/"
  let total := (server (employee_url ++ "?limit=1")).total
  let rest := paginate server employee_url total 0
  ((employee_url ++ "?limit=1") :: rest.1, rest.2)

/-- The `while start < total_ous` loop of `Connector.get_ous`, translated
exactly as written: the loop REBINDS the local `ou_url`
(`ou_url = "\x7b\x7d?limit=\x7b\x7d&start=\x7b\x7d".format(ou_url, offset, start)`), so each
iteration appends a fresh query string onto the previous iteration's full
URL instead of onto the collection URL. -/
def ouLoop (server : String → PageResponse α) (root : Option String)
    (total : Nat) (ou_url : String) (start : Nat) : List String × List α :=
  if start < total then
    let url := ou_url ++ "?limit=1000&start=" ++ toString start ++ rootSuffix root
    let rest := ouLoop server root total url (start + 1000)
    (url :: rest.1, (server url).items ++ rest.2)
  else ([], [])
termination_by total - start
decreasing_by omega

/-- `Connector.get_ous`: probe `ou_url ++ "?limit=1" (&root=...)` for
`total`, then run the (URL-rebinding) page loop. -/
def get_ous (server : String → PageResponse α) (mo_url org_id : String)
    (root : Option String) : List String × List α :=
  let ou_url := mo_url ++ "/o/" ++ org_id ++ "/ou/"
  let limit_1_url := ou_url ++ "?limit=1" ++ rootSuffix root
  let total := (server limit_1_url).total
  let rest := ouLoop server root total ou_url 0
  (limit_1_url :: rest.1, rest.2)

/-- The sequence of `start` cursors visited by the pagination loop. -/
def pageStarts (total start : Nat) : List Nat :=
  if start < total then start :: pageStarts total (start + 1000) else []
termination_by total - start
decreasing_by omega

theorem pageStarts_length (total start : Nat) :
    (pageStarts total start).length = (total - start + 999) / 1000 := by
  unfold pageStarts
  split
  · rw [List.length_cons, pageStarts_length total (start + 1000)]
    omega
  · simp
    omega
termination_by total - start
decreasing_by omega

theorem paginate_eq (server : String → PageResponse α) (base : String)
    (total start : Nat) :
    paginate server base total start =
      ((pageStarts total start).map
        (fun st => base ++ "?limit=1000&start=" ++ toString st),
       (pageStarts total start).flatMap
        (fun st => (server (base ++ "?limit=1000&start=" ++ toString st)).items)) := by
  unfold paginate pageStarts
  split
  · rw [paginate_eq server base total (start + 1000)]
    simp
  · simp
termination_by total - start
decreasing_by omega

/-- A mock server reporting `total = 1001`, forcing two page iterations. -/
def srvC1 : String → PageResponse Unit := fun _ => ⟨1001, [()]⟩

/-- The spec's end-to-end scenario: an employee collection endpoint
reporting `total = 2500` and serving pages of 1000, 1000 and 500 items. -/
def mock2500 : String → PageResponse Unit := fun u =>
  if u = "http://mo/o/org/e/?limit=1" then ⟨2500, [()]⟩
  else if u = "http://mo/o/org/e/?limit=1000&start=0" then ⟨2500, List.replicate 1000 ()⟩
  else if u = "http://mo/o/org/e/?limit=1000&start=1000" then ⟨2500, List.replicate 1000 ()⟩
  else if u = "http://mo/o/org/e/?limit=1000&start=2000" then ⟨2500, List.replicate 500 ()⟩
  else ⟨2500, []⟩

/-- A mock server reporting `total = 0` on every collection endpoint. -/
def srv0 : String → PageResponse Unit := fun _ => ⟨0, []⟩

/-- C1: the claim says every iteration of `get_ous`'s pagination loop issues
its page request against the org-unit collection URL with exactly
`limit=1000` and `start` equal to the current offset.  The code instead
rebinds `ou_url` inside the loop, so from the second iteration on the page
request URL accumulates the previous iterations' query strings.  This
theorem evaluates the embedded `get_ous` at a server reporting
`total = 1001`: the second page request goes to
`.../ou/?limit=1000&start=0?limit=1000&start=1000`, not to
`.../ou/?limit=1000&start=1000`. -/
theorem C1_get_ous_url_accumulation : (get_ous srvC1 "http://mo" "org" none).1 =
    ["http://mo/o/org/ou/?limit=1",
     "http://mo/o/org/ou/?limit=1000&start=0",
     "http://mo/o/org/ou/?limit=1000&start=0?limit=1000&start=1000"] := by
  simp [get_ous, ouLoop, rootSuffix, srvC1]
  exact ⟨rfl, rfl⟩

/-- C2: `get_employees` issues exactly one probe request (`limit=1`) plus
`ceil(total / 1000)` page requests (`limit=1000`, `start = 0, 1000, ...`),
and yields, in order, the concatenation of every page's `items`; in
particular against `mock2500` (total 2500, pages of 1000) it yields 2500
items after exactly 4 requests. -/
theorem C2_get_employees_pagination :
    (∀ (α : Type) (server : String → PageResponse α) (mo_url org_id : String),
      (get_employees server mo_url org_id).1 =
        (mo_url ++ "/o/" ++ org_id ++ "/e/" ++ "?limit=1") ::
          (pageStarts (server (mo_url ++ "/o/" ++ org_id ++ "/e/" ++ "?limit=1")).total 0).map
            (fun st => mo_url ++ "/o/" ++ org_id ++ "/e/" ++ "?limit=1000&start=" ++ toString st) ∧
      (get_employees server mo_url org_id).1.length =
        1 + ((server (mo_url ++ "/o/" ++ org_id ++ "/e/" ++ "?limit=1")).total + 999) / 1000 ∧
      (get_employees server mo_url org_id).2 =
        (pageStarts (server (mo_url ++ "/o/" ++ org_id ++ "/e/" ++ "?limit=1")).total 0).flatMap
          (fun st =>
            (server (mo_url ++ "/o/" ++ org_id ++ "/e/" ++ "?limit=1000&start=" ++ toString st)).items)) ∧
    ((get_employees mock2500 "http://mo" "org").2.length = 2500 ∧
     (get_employees mock2500 "http://mo" "org").1.length = 4) := by
  have hgen : ∀ (α : Type) (server : String → PageResponse α) (mo_url org_id : String),
      (get_employees server mo_url org_id).1 =
        (mo_url ++ "/o/" ++ org_id ++ "/e/" ++ "?limit=1") ::
          (pageStarts (server (mo_url ++ "/o/" ++ org_id ++ "/e/" ++ "?limit=1")).total 0).map
            (fun st => mo_url ++ "/o/" ++ org_id ++ "/e/" ++ "?limit=1000&start=" ++ toString st) ∧
      (get_employees server mo_url org_id).1.length =
        1 + ((server (mo_url ++ "/o/" ++ org_id ++ "/e/" ++ "?limit=1")).total + 999) / 1000 ∧
      (get_employees server mo_url org_id).2 =
        (pageStarts (server (mo_url ++ "/o/" ++ org_id ++ "/e/" ++ "?limit=1")).total 0).flatMap
          (fun st =>
            (server (mo_url ++ "/o/" ++ org_id ++ "/e/" ++ "?limit=1000&start=" ++ toString st)).items) := by
    intro α server mo_url org_id
    simp only [get_employees]
    rw [paginate_eq]
    refine ⟨rfl, ?_, rfl⟩
    simp only [List.length_cons, List.length_map, pageStarts_length]
    omega
  refine ⟨hgen, ?_, ?_⟩
  · have h := (hgen Unit mock2500 "http://mo" "org").2.2
    have hps : pageStarts (mock2500 ("http://mo" ++ "/o/" ++ "org" ++ "/e/" ++ "?limit=1")).total 0
        = [0, 1000, 2000] := by
      have ht : (mock2500 ("http://mo" ++ "/o/" ++ "org" ++ "/e/" ++ "?limit=1")).total = 2500 := rfl
      rw [ht]
      simp [pageStarts]
    have h0 : mock2500 ("http://mo" ++ "/o/" ++ "org" ++ "/e/" ++ "?limit=1000&start=" ++ toString (0 : Nat))
        = ⟨2500, List.replicate 1000 ()⟩ := rfl
    have h1 : mock2500 ("http://mo" ++ "/o/" ++ "org" ++ "/e/" ++ "?limit=1000&start=" ++ toString (1000 : Nat))
        = ⟨2500, List.replicate 1000 ()⟩ := rfl
    have h2 : mock2500 ("http://mo" ++ "/o/" ++ "org" ++ "/e/" ++ "?limit=1000&start=" ++ toString (2000 : Nat))
        = ⟨2500, List.replicate 500 ()⟩ := rfl
    rw [h, hps]
    simp only [List.flatMap_cons, List.flatMap_nil, List.length_append, List.length_nil,
      h0, h1, h2, List.length_replicate]
  · have h := (hgen Unit mock2500 "http://mo" "org").2.1
    rw [h]
    rfl

/-- C3: if the probe reports `total = 0`, both `get_ous` and
`get_employees` yield the empty sequence and issue exactly one request,
namely the probe. -/
theorem C3_zero_total_probe_only (α : Type) (server : String → PageResponse α)
    (mo_url org_id : String) (root : Option String)
    (h : ∀ u, (server u).total = 0) :
    get_ous server mo_url org_id root =
      ([mo_url ++ "/o/" ++ org_id ++ "/ou/" ++ "?limit=1" ++ rootSuffix root], []) ∧
    get_employees server mo_url org_id =
      ([mo_url ++ "/o/" ++ org_id ++ "/e/" ++ "?limit=1"], []) := by
  constructor <;> simp [get_ous, get_employees, h, ouLoop, paginate]

/-- Witness for C3 at the concrete zero-total server `srv0`. -/
theorem C3_zero_total_probe_only_witness :
    get_ous srv0 "http://mo" "org" none = (["http://mo/o/org/ou/?limit=1"], []) ∧
    get_employees srv0 "http://mo" "org" = (["http://mo/o/org/e/?limit=1"], []) := by
  simpa [rootSuffix] using
    C3_zero_total_probe_only Unit srv0 "http://mo" "org" none (fun u => rfl)

/-- One element of the response to organization discovery
(`GET {mo_url}/o/`): only the `uuid` field is consumed. -/
structure OrgRecord where
  uuid : String
deriving DecidableEq, Repr

/-- Outcome of resolving `Connector.org_id`: the resolved organization
uuid, together with whether the non-fatal "More than one organisation
exists in LoRa" warning was logged. -/
structure OrgResolution where
  org_id : String
  warned : Bool
deriving DecidableEq, Repr

/-- `Connector._get_org`: fetch `mo_url ++ "/o/"`; if the list is truthy
(non-empty) return the first element's `uuid`, logging a warning when more
than one organisation is present; otherwise raise
`Exception('No organisation found in LoRa')`. -/
def _get_org (server : String → List OrgRecord) (mo_url : String) :
    Except MOError OrgResolution :=
  match server (mo_url ++ "/o/") with
  | [] => .error .noOrganizationFound
  | o :: rest => .ok ⟨o.uuid, !rest.isEmpty⟩

/-- The `org_id` resolution in `Connector.__init__`: a truthy `org_uuid`
argument is used as-is (no request, no warning); otherwise `_get_org` runs.
`none` and the empty string are falsy in the Python condition `if org_uuid`. -/
def connector_org_id (server : String → List OrgRecord) (mo_url : String)
    (org_uuid : Option String) : Except MOError OrgResolution :=
  match org_uuid with
  | some u => if u = "" then _get_org server mo_url else .ok ⟨u, false⟩
  | none => _get_org server mo_url

/-- C4: constructing a Connector without an explicit organization id
queries `GET {mo_url}/o/`; a zero-element response fails construction with
the no-organisation error, a non-empty response resolves `org_id` to the
first element's uuid, and the warning is recorded exactly when more than
one element is returned. -/
theorem C4_org_discovery (server : String → List OrgRecord) (mo_url : String) :
    (server (mo_url ++ "/o/") = [] →
      connector_org_id server mo_url none = .error .noOrganizationFound) ∧
    (∀ o rest, server (mo_url ++ "/o/") = o :: rest →
      connector_org_id server mo_url none = .ok ⟨o.uuid, !rest.isEmpty⟩) := by
  constructor
  · intro h
    simp [connector_org_id, _get_org, h]
  · intro o rest h
    simp [connector_org_id, _get_org, h]

/-- Witness for C4: a zero-element discovery response fails, and a
two-element response resolves to the first uuid with the warning flag set. -/
theorem C4_org_discovery_witness :
    connector_org_id (fun _ => []) "http://mo" none = .error .noOrganizationFound ∧
    connector_org_id (fun _ => [⟨"a"⟩, ⟨"b"⟩]) "http://mo" none = .ok ⟨"a", true⟩ := by
  constructor
  · exact (C4_org_discovery (fun _ => []) "http://mo").1 rfl
  · exact (C4_org_discovery (fun _ => [⟨"a"⟩, ⟨"b"⟩]) "http://mo").2 ⟨"a"⟩ [⟨"b"⟩] rfl

/-- The remote service's behaviour on one entity's resource, as consumed by
`MOData`: its own JSON body (`GET url`), its children (`GET url/children/`),
the detail index (`GET url/details/`, a JSON mapping detail-name to a
truthy/falsy flag, modelled as an association list), and each detail payload
(`GET url/details/<name>?validity=...`, a list of JSON objects). -/
structure EntityServer (α : Type) where
  body : α
  children : α
  detailsIndex : List (String × Bool)
  detailPayload : String → String → List α

/-- The mutable state of one `MOData` object: the identity fields set by
`__init__` (plus `url`, set by the `OrgUnit` / `Employee` subclass
constructors), the three `cached_property` caches, the
`_stored_details` defaultdict (an insertion-ordered association list), and
the ordered log of requests this object has issued through
`connector.mo_get`.  The `connector` attribute itself is a back-reference
and is modelled opaquely (the `EntityServer` plays its role). -/
structure MODataState (α : Type) where
  uuid : String
  url : String
  validity : String
  stored_details : List (String × List α)
  json_cache : Option α
  children_cache : Option α
  details_cache : Option (List (String × Bool))
  requests : List Request
deriving Repr

/-- `MOData.__init__`: store `uuid`, `connector`, `validity`, create an
empty `_stored_details` defaultdict; `url` is set by the subclass. -/
def MOData.init (url uuid validity : String) : MODataState α :=
  { uuid, url, validity, stored_details := [], json_cache := none,
    children_cache := none, details_cache := none, requests := [] }

/-- `OrgUnit.__init__`: `url = connector.mo_url + "/ou/" + uuid + "/"`. -/
def OrgUnit.init (mo_url uuid validity : String) : MODataState α :=
  MOData.init (mo_url ++ "/ou/" ++ uuid ++ "/") uuid validity

/-- `Employee.__init__`: `url = connector.mo_url + "/e/" + uuid + "/"`. -/
def Employee.init (mo_url uuid validity : String) : MODataState α :=
  MOData.init (mo_url ++ "/e/" ++ uuid ++ "/") uuid validity

/-- `Connector.get_ou_connector(org_unit_uuid, validity)`:
returns `OrgUnit(org_unit_uuid, self, validity)`. -/
def get_ou_connector (mo_url org_unit_uuid validity : String) : MODataState α :=
  OrgUnit.init mo_url org_unit_uuid validity

/-- `Connector.get_ou_connector` called with the source's default argument
`validity='present'`. -/
def get_ou_connector_default (mo_url org_unit_uuid : String) : MODataState α :=
  get_ou_connector mo_url org_unit_uuid "present"

/-- `Connector.get_employee_connector(employee_uuid, validity)`:
returns `Employee(employee_uuid, self, validity)`. -/
def get_employee_connector (mo_url employee_uuid validity : String) :
    MODataState α :=
  Employee.init mo_url employee_uuid validity

/-- `Connector.get_employee_connector` called with the source's default
argument `validity='present'`. -/
def get_employee_connector_default (mo_url employee_uuid : String) :
    MODataState α :=
  get_employee_connector mo_url employee_uuid "present"

/-- The `cached_property json`: `connector.mo_get(self.url)`, fetched once
and memoized. -/
def getJson (server : EntityServer α) (s : MODataState α) : α × MODataState α :=
  match s.json_cache with
  | some v => (v, s)
  | none =>
    (server.body,
     { s with json_cache := some server.body,
              requests := s.requests ++ [⟨s.url, []⟩] })

/-- The `cached_property children`:
`connector.mo_get(self.url + "children/")`, fetched once and memoized. -/
def getChildren (server : EntityServer α) (s : MODataState α) :
    α × MODataState α :=
  match s.children_cache with
  | some v => (v, s)
  | none =>
    (server.children,
     { s with children_cache := some server.children,
              requests := s.requests ++ [⟨s.url ++ "children/", []⟩] })

/-- The `cached_property _details`:
`connector.mo_get(self.url + "details/")`, fetched once and memoized. -/
def ensureDetails (server : EntityServer α) (s : MODataState α) :
    List (String × Bool) × MODataState α :=
  match s.details_cache with
  | some idx => (idx, s)
  | none =>
    (server.detailsIndex,
     { s with details_cache := some server.detailsIndex,
              requests := s.requests ++ [⟨s.url ++ "details/", []⟩] })

/-- `MOData._get_detail(detail)`:
`connector.mo_get(self.url + "details/" + detail, validity=self.validity)`. -/
def _get_detail (server : EntityServer α) (s : MODataState α) (name : String) :
    List α × MODataState α :=
  (server.detailPayload name s.validity,
   { s with requests :=
      s.requests ++ [⟨s.url ++ "details/" ++ name, [("validity", s.validity)]⟩] })

/-- `MOData.__getattr__(name)` translated line by line:
`if name in self._details` (key membership in the cached index);
`if name not in self._stored_details and self._details[name]:` fetch the
detail and assign it (the key is absent, so the dict assignment is an
insertion); `return self._stored_details[name]` (a defaultdict lookup,
which inserts the default `[]` when the key is missing); otherwise
`raise AttributeError("No such attribute: " + name)`. -/
def getattr (server : EntityServer α) (s : MODataState α) (name : String) :
    Except MOError (List α) × MODataState α :=
  let r := ensureDetails server s
  let idx := r.1
  let s1 := r.2
  if (List.lookup name idx).isSome then
    let s2 :=
      if (List.lookup name s1.stored_details).isNone &&
          ((List.lookup name idx).getD false) then
        let d := _get_detail server s1 name
        { d.2 with stored_details := d.2.stored_details ++ [(name, d.1)] }
      else s1
    match List.lookup name s2.stored_details with
    | some v => (.ok v, s2)
    | none => (.ok [], { s2 with stored_details := s2.stored_details ++ [(name, [])] })
  else
    (.error (.attributeNotFound name), s1)

theorem lookup_append_none {β : Type} {l : List (String × β)}
    (l2 : List (String × β)) {k : String} (h : List.lookup k l = none) :
    List.lookup k (l ++ l2) = List.lookup k l2 := by
  induction l with
  | nil => simp
  | cons p t ih =>
    obtain ⟨a, b⟩ := p
    by_cases hk : k = a
    · subst hk
      simp [List.lookup_cons] at h
    · have hba : (k == a) = false := beq_eq_false_iff_ne.mpr hk
      simp only [List.cons_append, List.lookup_cons, hba] at h ⊢
      exact ih h

theorem lookup_append_some {β : Type} {l : List (String × β)}
    (l2 : List (String × β)) {k : String} {v : β}
    (h : List.lookup k l = some v) : List.lookup k (l ++ l2) = some v := by
  induction l with
  | nil => simp at h
  | cons p t ih =>
    obtain ⟨a, b⟩ := p
    by_cases hk : k = a
    · subst hk
      simp [List.lookup_cons] at h ⊢
      exact h
    · have hba : (k == a) = false := beq_eq_false_iff_ne.mpr hk
      simp only [List.cons_append, List.lookup_cons, hba] at h ⊢
      exact ih h

theorem lookup_singleton {β : Type} (k : String) (v : β) :
    List.lookup k [(k, v)] = some v := by
  simp [List.lookup_cons]

/-- Running `__getattr__` on a name whose index flag is truthy and whose
payload is not yet stored: the index is fetched if not cached, the payload
is fetched with `validity=self.validity` and stored, and the payload is
returned. -/
theorem getattr_fetch (server : EntityServer α) (s : MODataState α)
    (name : String)
    (hidx : List.lookup name (s.details_cache.getD server.detailsIndex) = some true)
    (hns : List.lookup name s.stored_details = none) :
    getattr server s name =
      (.ok (server.detailPayload name s.validity),
       { s with
          details_cache := some (s.details_cache.getD server.detailsIndex),
          stored_details :=
            s.stored_details ++ [(name, server.detailPayload name s.validity)],
          requests := s.requests ++
            (match s.details_cache with
             | none => [⟨s.url ++ "details/", []⟩]
             | some _ => []) ++
            [⟨s.url ++ "details/" ++ name, [("validity", s.validity)]⟩] }) := by
  cases hdc : s.details_cache with
  | none =>
    have hidx' : List.lookup name server.detailsIndex = some true := by
      simpa [hdc] using hidx
    simp [getattr, ensureDetails, _get_detail, hdc, hidx', hns,
      lookup_append_none, lookup_singleton]
  | some idx =>
    have hidx' : List.lookup name idx = some true := by
      simpa [hdc] using hidx
    simp [getattr, ensureDetails, _get_detail, hdc, hidx', hns,
      lookup_append_none, lookup_singleton]

/-- Running `__getattr__` when the index is cached, the name is a key of
the index and the payload is already stored: the stored value is returned
and the state (in particular the request log) is unchanged. -/
theorem getattr_cached (server : EntityServer α) (s : MODataState α)
    (name : String) (v : List α) (idx : List (String × Bool))
    (hdc : s.details_cache = some idx)
    (hidx : (List.lookup name idx).isSome = true)
    (hsv : List.lookup name s.stored_details = some v) :
    getattr server s name = (.ok v, s) := by
  simp [getattr, ensureDetails, hdc, hidx, hsv]

/-- Running `__getattr__` on a name whose index flag is falsy and which is
not yet a key of `_stored_details`: no detail request is made, the
defaultdict lookup inserts `[]`, and `[]` is returned. -/
theorem getattr_absent (server : EntityServer α) (s : MODataState α)
    (name : String)
    (hidx : List.lookup name (s.details_cache.getD server.detailsIndex) = some false)
    (hns : List.lookup name s.stored_details = none) :
    getattr server s name =
      (.ok [],
       { s with
          details_cache := some (s.details_cache.getD server.detailsIndex),
          stored_details := s.stored_details ++ [(name, [])],
          requests := s.requests ++
            (match s.details_cache with
             | none => [⟨s.url ++ "details/", []⟩]
             | some _ => []) }) := by
  cases hdc : s.details_cache with
  | none =>
    have hidx' : List.lookup name server.detailsIndex = some false := by
      simpa [hdc] using hidx
    simp [getattr, ensureDetails, hdc, hidx', hns,
      lookup_append_none, lookup_singleton]
  | some idx =>
    have hidx' : List.lookup name idx = some false := by
      simpa [hdc] using hidx
    simp [getattr, ensureDetails, hdc, hidx', hns,
      lookup_append_none, lookup_singleton]

/-- Running `__getattr__` on a name that is not a key of the detail index:
`AttributeError` is raised, no request beyond the (possible) index fetch is
made, and `_stored_details` is untouched. -/
theorem getattr_missing (server : EntityServer α) (s : MODataState α)
    (name : String)
    (hidx : List.lookup name (s.details_cache.getD server.detailsIndex) = none) :
    getattr server s name =
      (.error (.attributeNotFound name),
       { s with
          details_cache := some (s.details_cache.getD server.detailsIndex),
          requests := s.requests ++
            (match s.details_cache with
             | none => [⟨s.url ++ "details/", []⟩]
             | some _ => []) }) := by
  cases hdc : s.details_cache with
  | none =>
    have hidx' : List.lookup name server.detailsIndex = none := by
      simpa [hdc] using hidx
    simp [getattr, ensureDetails, hdc, hidx']
  | some idx =>
    have hidx' : List.lookup name idx = none := by
      simpa [hdc] using hidx
    simp [getattr, ensureDetails, hdc, hidx']
    rw [← hdc]

/-- Running `__getattr__` on a name that is a key of the index (any flag)
whose payload is already a key of `_stored_details`: the stored value is
returned without a detail fetch; only the index may be fetched. -/
theorem getattr_stored (server : EntityServer α) (s : MODataState α)
    (name : String) (v : List α) (flag : Bool)
    (hidx : List.lookup name (s.details_cache.getD server.detailsIndex) = some flag)
    (hsv : List.lookup name s.stored_details = some v) :
    getattr server s name =
      (.ok v,
       { s with
          details_cache := some (s.details_cache.getD server.detailsIndex),
          requests := s.requests ++
            (match s.details_cache with
             | none => [⟨s.url ++ "details/", []⟩]
             | some _ => []) }) := by
  cases hdc : s.details_cache with
  | none =>
    have hidx' : List.lookup name server.detailsIndex = some flag := by
      simpa [hdc] using hidx
    simp [getattr, ensureDetails, hdc, hidx', hsv]
  | some idx =>
    have hidx' : List.lookup name idx = some flag := by
      simpa [hdc] using hidx
    simp [getattr, ensureDetails, hdc, hidx', hsv]
    rw [← hdc]

/-- A concrete entity server: detail index declares `manager` present and
`address` absent; every detail payload is `[7]`. -/
def wServer : EntityServer Nat :=
  { body := 1, children := 2,
    detailsIndex := [("manager", true), ("address", false)],
    detailPayload := fun _ _ => [7] }

/-- A concrete fresh entity: `get_ou_connector("u1")` with the default
validity, bound to `mo_url = "http://mo"`. -/
def wEntity : MODataState Nat := get_ou_connector_default "http://mo" "u1"

/-- C5: for a detail name whose index flag is truthy and whose payload is
not yet stored, the first access fetches the payload (with
`validity=self.validity`) and caches it, and a second access with no
intervening state change returns the same value and issues no request at
all, so exactly one network request for that name is ever made. -/
theorem C5_detail_memoization (α : Type) (server : EntityServer α)
    (s : MODataState α) (name : String)
    (hidx : List.lookup name (s.details_cache.getD server.detailsIndex) = some true)
    (hns : List.lookup name s.stored_details = none) :
    (getattr server s name).1 = .ok (server.detailPayload name s.validity) ∧
    List.lookup name (getattr server s name).2.stored_details =
      some (server.detailPayload name s.validity) ∧
    List.count (⟨s.url ++ "details/" ++ name, [("validity", s.validity)]⟩ : Request)
        (getattr server s name).2.requests =
      List.count (⟨s.url ++ "details/" ++ name, [("validity", s.validity)]⟩ : Request)
        s.requests + 1 ∧
    getattr server (getattr server s name).2 name =
      ((getattr server s name).1, (getattr server s name).2) := by
  have hf := getattr_fetch server s name hidx hns
  have h1 : (getattr server s name).1 = .ok (server.detailPayload name s.validity) := by
    rw [hf]
  have h2 : List.lookup name (getattr server s name).2.stored_details =
      some (server.detailPayload name s.validity) := by
    rw [hf]
    exact (lookup_append_none _ hns).trans (lookup_singleton _ _)
  refine ⟨h1, h2, ?_, ?_⟩
  · rw [hf]
    cases hdc : s.details_cache with
    | none =>
      simp [List.count_append, List.count_cons]
    | some idx =>
      simp [List.count_append, List.count_cons]
  · have hdc2 : (getattr server s name).2.details_cache =
        some (s.details_cache.getD server.detailsIndex) := by
      rw [hf]
    have hc := getattr_cached server (getattr server s name).2 name
      (server.detailPayload name s.validity)
      (s.details_cache.getD server.detailsIndex) hdc2 (by rw [hidx]; rfl) h2
    rw [hc, h1]

/-- Witness for C5 at the concrete entity `wEntity` and the present detail
`manager`. -/
theorem C5_detail_memoization_witness :
    (getattr wServer wEntity "manager").1 = .ok [7] ∧
    List.count (⟨"http://mo/ou/u1/details/manager", [("validity", "present")]⟩ : Request)
        (getattr wServer wEntity "manager").2.requests = 1 ∧
    getattr wServer (getattr wServer wEntity "manager").2 "manager" =
      ((getattr wServer wEntity "manager").1, (getattr wServer wEntity "manager").2) := by
  have h := C5_detail_memoization Nat wServer wEntity "manager" (by decide) (by decide)
  refine ⟨h.1, ?_, h.2.2.2⟩
  have hc := h.2.2.1
  simpa using hc

/-- C6: for a detail name whose index flag is falsy, every access returns
the empty list and issues no request beyond the (at most one) index fetch:
the first access only fetches the index when it is not yet cached, and the
second access leaves the state — including the request log — untouched. -/
theorem C6_absent_detail_empty (α : Type) (server : EntityServer α)
    (s : MODataState α) (name : String)
    (hidx : List.lookup name (s.details_cache.getD server.detailsIndex) = some false)
    (hns : List.lookup name s.stored_details = none) :
    (getattr server s name).1 = .ok [] ∧
    (getattr server s name).2.requests = s.requests ++
      (match s.details_cache with
       | none => [⟨s.url ++ "details/", []⟩]
       | some _ => []) ∧
    getattr server (getattr server s name).2 name =
      (.ok [], (getattr server s name).2) := by
  have hf := getattr_absent server s name hidx hns
  have h2 : List.lookup name (getattr server s name).2.stored_details =
      some [] := by
    rw [hf]
    exact (lookup_append_none _ hns).trans (lookup_singleton _ _)
  refine ⟨by rw [hf], by rw [hf], ?_⟩
  have hdc2 : (getattr server s name).2.details_cache =
      some (s.details_cache.getD server.detailsIndex) := by
    rw [hf]
  exact getattr_cached server (getattr server s name).2 name []
    (s.details_cache.getD server.detailsIndex) hdc2 (by rw [hidx]; rfl) h2

/-- Witness for C6 at the concrete entity `wEntity` and the absent detail
`address`: the only request ever issued is the index fetch. -/
theorem C6_absent_detail_empty_witness :
    (getattr wServer wEntity "address").1 = .ok [] ∧
    (getattr wServer wEntity "address").2.requests =
      [⟨"http://mo/ou/u1/details/", []⟩] ∧
    getattr wServer (getattr wServer wEntity "address").2 "address" =
      (.ok [], (getattr wServer wEntity "address").2) := by
  have h := C6_absent_detail_empty Nat wServer wEntity "address" (by decide) (by decide)
  refine ⟨h.1, ?_, h.2.2⟩
  simpa using h.2.1

/-- C7: accessing a detail name that is not a key of the detail index
raises `AttributeError("No such attribute: <name>")`, stores nothing, and
issues no request beyond the (at most one) index fetch; repeating the
access fails identically with no further request. -/
theorem C7_unknown_name_fails (α : Type) (server : EntityServer α)
    (s : MODataState α) (name : String)
    (hidx : List.lookup name (s.details_cache.getD server.detailsIndex) = none) :
    (getattr server s name).1 = .error (.attributeNotFound name) ∧
    (getattr server s name).2.requests = s.requests ++
      (match s.details_cache with
       | none => [⟨s.url ++ "details/", []⟩]
       | some _ => []) ∧
    (getattr server s name).2.stored_details = s.stored_details ∧
    getattr server (getattr server s name).2 name =
      (.error (.attributeNotFound name), (getattr server s name).2) := by
  have hf := getattr_missing server s name hidx
  refine ⟨by rw [hf], by rw [hf], by rw [hf], ?_⟩
  have hdc2 : (getattr server s name).2.details_cache =
      some (s.details_cache.getD server.detailsIndex) := by
    rw [hf]
  have hm := getattr_missing server (getattr server s name).2 name
    (by rw [hdc2, Option.getD_some, hidx])
  rw [hm]
  simp [hdc2]
  rw [← hdc2]

/-- Witness for C7 at the concrete entity `wEntity` and the unknown detail
name `engagement`. -/
theorem C7_unknown_name_fails_witness :
    (getattr wServer wEntity "engagement").1 =
      .error (.attributeNotFound "engagement") ∧
    (getattr wServer wEntity "engagement").2.requests =
      [⟨"http://mo/ou/u1/details/", []⟩] ∧
    (getattr wServer wEntity "engagement").2.stored_details = [] ∧
    getattr wServer (getattr wServer wEntity "engagement").2 "engagement" =
      (.error (.attributeNotFound "engagement"),
       (getattr wServer wEntity "engagement").2) := by
  have h := C7_unknown_name_fails Nat wServer wEntity "engagement" (by decide)
  refine ⟨h.1, by simpa using h.2.1, by simpa using h.2.2.1, h.2.2.2⟩

/-- C8: `_get_detail` issues exactly a GET to
`self.url + "details/" + name` with the query parameter
`validity=self.validity`; every request `__getattr__` issues is either the
index fetch or that detail fetch; and the entity factories
`get_ou_connector` / `get_employee_connector` default `validity` to
`'present'`. -/
theorem C8_detail_fetch_validity (α : Type) (server : EntityServer α)
    (s : MODataState α) (name : String) :
    (_get_detail server s name).1 = server.detailPayload name s.validity ∧
    (_get_detail server s name).2.requests =
      s.requests ++ [⟨s.url ++ "details/" ++ name, [("validity", s.validity)]⟩] ∧
    (∃ l, (getattr server s name).2.requests = s.requests ++ l ∧
      ∀ r ∈ l, r = ⟨s.url ++ "details/", []⟩ ∨
        r = ⟨s.url ++ "details/" ++ name, [("validity", s.validity)]⟩) ∧
    (∀ mo_url uuid, (@get_ou_connector_default α mo_url uuid).validity = "present" ∧
      (@get_employee_connector_default α mo_url uuid).validity = "present") := by
  refine ⟨rfl, rfl, ?_, fun _ _ => ⟨rfl, rfl⟩⟩
  rcases hflag : List.lookup name (s.details_cache.getD server.detailsIndex) with _ | flag
  · rw [getattr_missing server s name hflag]
    refine ⟨_, rfl, ?_⟩
    intro r hr
    cases hdc : s.details_cache with
    | none =>
      rw [hdc] at hr
      simp at hr
      exact Or.inl hr
    | some idx =>
      rw [hdc] at hr
      simp at hr
  · rcases hsv : List.lookup name s.stored_details with _ | v
    · cases flag with
      | false =>
        rw [getattr_absent server s name hflag hsv]
        refine ⟨_, rfl, ?_⟩
        intro r hr
        cases hdc : s.details_cache with
        | none =>
          rw [hdc] at hr
          simp at hr
          exact Or.inl hr
        | some idx =>
          rw [hdc] at hr
          simp at hr
      | true =>
        rw [getattr_fetch server s name hflag hsv]
        refine ⟨(match s.details_cache with
                 | none => [⟨s.url ++ "details/", []⟩]
                 | some _ => []) ++
                [⟨s.url ++ "details/" ++ name, [("validity", s.validity)]⟩],
               ?_, ?_⟩
        · rw [List.append_assoc]
        · intro r hr
          rcases List.mem_append.mp hr with h | h
          · cases hdc : s.details_cache with
            | none =>
              rw [hdc] at h
              simp at h
              exact Or.inl h
            | some idx =>
              rw [hdc] at h
              simp at h
          · simp at h
            exact Or.inr h
    · rw [getattr_stored server s name v flag hflag hsv]
      refine ⟨_, rfl, ?_⟩
      intro r hr
      cases hdc : s.details_cache with
      | none =>
        rw [hdc] at hr
        simp at hr
        exact Or.inl hr
      | some idx =>
        rw [hdc] at hr
        simp at hr

/-- Witness for C8 at `wEntity`: the detail fetch for `manager` carries
`validity=present`, and the factory defaults hold. -/
theorem C8_detail_fetch_validity_witness :
    (_get_detail wServer wEntity "manager").2.requests =
      [⟨"http://mo/ou/u1/details/manager", [("validity", "present")]⟩] ∧
    (@get_ou_connector_default Nat "http://mo" "u1").validity = "present" ∧
    (@get_employee_connector_default Nat "http://mo" "e1").validity = "present" := by
  have h := C8_detail_fetch_validity Nat wServer wEntity "manager"
  refine ⟨by simpa using h.2.1, (h.2.2.2 "http://mo" "u1").1,
    (h.2.2.2 "http://mo" "e1").2⟩

/-- The memoization caches of an entity populate monotonically from state
`s` to state `t`: the identity fields are unchanged and no cached value is
ever removed or replaced. -/
def preserves (s t : MODataState α) : Prop :=
  t.uuid = s.uuid ∧ t.url = s.url ∧ t.validity = s.validity ∧
  (∀ v, s.json_cache = some v → t.json_cache = some v) ∧
  (∀ v, s.children_cache = some v → t.children_cache = some v) ∧
  (∀ i, s.details_cache = some i → t.details_cache = some i) ∧
  (∀ k v, List.lookup k s.stored_details = some v →
    List.lookup k t.stored_details = some v)

theorem preserves_refl (s : MODataState α) : preserves s s :=
  ⟨rfl, rfl, rfl, fun _ h => h, fun _ h => h, fun _ h => h, fun _ _ h => h⟩

/-- C9: every operation on an entity — `json`, `children`, and
`__getattr__` for any name — preserves the entity's identity (uuid, url,
validity) and only ever adds cache entries: an existing `json` /
`children` / `_details` cache value and every stored detail payload
survive unchanged. -/
theorem C9_caches_monotone (α : Type) (server : EntityServer α)
    (s : MODataState α) :
    preserves s (getJson server s).2 ∧
    preserves s (getChildren server s).2 ∧
    ∀ name, preserves s (getattr server s name).2 := by
  refine ⟨?_, ?_, ?_⟩
  · cases hjc : s.json_cache with
    | some v =>
      have h : (getJson server s).2 = s := by simp [getJson, hjc]
      rw [h]
      exact preserves_refl s
    | none =>
      have h : (getJson server s).2 =
          { s with json_cache := some server.body,
                   requests := s.requests ++ [⟨s.url, []⟩] } := by
        simp [getJson, hjc]
      rw [h]
      refine ⟨rfl, rfl, rfl, ?_, fun w hw => hw, fun i hi => hi, fun k w hw => hw⟩
      intro w hw
      rw [hjc] at hw
      cases hw
  · cases hcc : s.children_cache with
    | some v =>
      have h : (getChildren server s).2 = s := by simp [getChildren, hcc]
      rw [h]
      exact preserves_refl s
    | none =>
      have h : (getChildren server s).2 =
          { s with children_cache := some server.children,
                   requests := s.requests ++ [⟨s.url ++ "children/", []⟩] } := by
        simp [getChildren, hcc]
      rw [h]
      refine ⟨rfl, rfl, rfl, fun w hw => hw, ?_, fun i hi => hi, fun k w hw => hw⟩
      intro w hw
      rw [hcc] at hw
      cases hw
  · intro name
    rcases hflag : List.lookup name (s.details_cache.getD server.detailsIndex) with _ | flag
    · rw [getattr_missing server s name hflag]
      refine ⟨rfl, rfl, rfl, fun w hw => hw, fun w hw => hw, ?_, fun k w hw => hw⟩
      intro i hi
      rw [hi]
      rfl
    · rcases hsv : List.lookup name s.stored_details with _ | v
      · cases flag with
        | false =>
          rw [getattr_absent server s name hflag hsv]
          refine ⟨rfl, rfl, rfl, fun w hw => hw, fun w hw => hw, ?_, ?_⟩
          · intro i hi
            rw [hi]
            rfl
          · intro k w hw
            exact lookup_append_some _ hw
        | true =>
          rw [getattr_fetch server s name hflag hsv]
          refine ⟨rfl, rfl, rfl, fun w hw => hw, fun w hw => hw, ?_, ?_⟩
          · intro i hi
            rw [hi]
            rfl
          · intro k w hw
            exact lookup_append_some _ hw
      · rw [getattr_stored server s name v flag hflag hsv]
        refine ⟨rfl, rfl, rfl, fun w hw => hw, fun w hw => hw, ?_, fun k w hw => hw⟩
        intro i hi
        rw [hi]
        rfl

/-- Witness for C9 at `wEntity`: accessing the `manager` detail and then
the `json` body preserves identity and all cached values. -/
theorem C9_caches_monotone_witness :
    preserves wEntity (getattr wServer wEntity "manager").2 ∧
    preserves wEntity (getJson wServer wEntity).2 := by
  exact ⟨(C9_caches_monotone Nat wServer wEntity).2.2 "manager",
    (C9_caches_monotone Nat wServer wEntity).1⟩

/-- The value produced by a Python attribute access on a `MOData` object:
a plain string field, the opaque connector back-reference, a JSON value
(from the `json` / `children` properties), the detail index, the
`_stored_details` dict, or a detail payload routed through
`__getattr__`. -/
inductive AttrValue (α : Type) where
  | strV (s : String)
  | connV
  | jsonV (v : α)
  | indexV (m : List (String × Bool))
  | storedV (m : List (String × List α))
  | detailV (l : List α)
deriving Repr

/-- The names bound as regular attributes of a `MOData` instance: the
fields set in `__init__` (`uuid`, `connector`, `validity`,
`_stored_details`), the `url` set by the subclass constructor, and the
three `cached_property` descriptors found on the class (`json`,
`children`, `_details`).  Methods such as `_get_detail` are also class
attributes; they are not modelled as they produce bound methods, not
data. -/
def boundNames : List String :=
  ["uuid", "connector", "validity", "url", "_stored_details",
   "json", "children", "_details"]

/-- Python attribute resolution on a `MOData` object: `__getattr__` is
invoked only when normal lookup fails, i.e. only for names that are not
instance attributes and not `cached_property` descriptors of the class.
Every bound name returns its attribute (fetching and memoizing it for the
three properties); only unbound names reach `__getattr__`. -/
def attribute_access (server : EntityServer α) (s : MODataState α)
    (name : String) : Except MOError (AttrValue α) × MODataState α :=
  if name = "uuid" then (.ok (.strV s.uuid), s)
  else if name = "connector" then (.ok .connV, s)
  else if name = "validity" then (.ok (.strV s.validity), s)
  else if name = "url" then (.ok (.strV s.url), s)
  else if name = "_stored_details" then (.ok (.storedV s.stored_details), s)
  else if name = "json" then
    (.ok (.jsonV (getJson server s).1), (getJson server s).2)
  else if name = "children" then
    (.ok (.jsonV (getChildren server s).1), (getChildren server s).2)
  else if name = "_details" then
    (.ok (.indexV (ensureDetails server s).1), (ensureDetails server s).2)
  else
    ((getattr server s name).1.map AttrValue.detailV, (getattr server s name).2)

/-- C10: accessing a name bound as a regular attribute returns that
attribute without touching the detail machinery — the plain fields leave
the state untouched entirely, and the three memoized properties leave
`_stored_details` and the detail index cache untouched — even if the same
name is a key of the detail index; only unbound names are routed through
`__getattr__`. -/
theorem C10_attribute_resolution (α : Type) (server : EntityServer α)
    (s : MODataState α) :
    attribute_access server s "uuid" = (.ok (.strV s.uuid), s) ∧
    attribute_access server s "connector" = (.ok .connV, s) ∧
    attribute_access server s "validity" = (.ok (.strV s.validity), s) ∧
    attribute_access server s "url" = (.ok (.strV s.url), s) ∧
    attribute_access server s "_stored_details" =
      (.ok (.storedV s.stored_details), s) ∧
    attribute_access server s "json" =
      (.ok (.jsonV (getJson server s).1), (getJson server s).2) ∧
    (attribute_access server s "json").2.stored_details = s.stored_details ∧
    (attribute_access server s "json").2.details_cache = s.details_cache ∧
    attribute_access server s "children" =
      (.ok (.jsonV (getChildren server s).1), (getChildren server s).2) ∧
    (attribute_access server s "children").2.stored_details = s.stored_details ∧
    (attribute_access server s "children").2.details_cache = s.details_cache ∧
    attribute_access server s "_details" =
      (.ok (.indexV (ensureDetails server s).1), (ensureDetails server s).2) ∧
    (attribute_access server s "_details").2.stored_details = s.stored_details ∧
    (∀ name, ¬ name ∈ boundNames →
      attribute_access server s name =
        ((getattr server s name).1.map AttrValue.detailV,
         (getattr server s name).2)) := by
  refine ⟨rfl, rfl, rfl, rfl, rfl, rfl, ?_, ?_, rfl, ?_, ?_, rfl, ?_, ?_⟩
  · show (getJson server s).2.stored_details = s.stored_details
    cases hjc : s.json_cache <;> simp [getJson, hjc]
  · show (getJson server s).2.details_cache = s.details_cache
    cases hjc : s.json_cache <;> simp [getJson, hjc]
  · show (getChildren server s).2.stored_details = s.stored_details
    cases hcc : s.children_cache <;> simp [getChildren, hcc]
  · show (getChildren server s).2.details_cache = s.details_cache
    cases hcc : s.children_cache <;> simp [getChildren, hcc]
  · show (ensureDetails server s).2.stored_details = s.stored_details
    cases hdc : s.details_cache <;> simp [ensureDetails, hdc]
  · intro name h
    simp only [boundNames, List.mem_cons, List.not_mem_nil, or_false, not_or] at h
    obtain ⟨h1, h2, h3, h4, h5, h6, h7, h8⟩ := h
    simp only [attribute_access, if_neg h1, if_neg h2, if_neg h3, if_neg h4,
      if_neg h5, if_neg h6, if_neg h7, if_neg h8]

/-- Witness for C10 at `wEntity`: `uuid` resolves to the instance field
without any request, and the unbound name `manager` is routed through
`__getattr__`. -/
theorem C10_attribute_resolution_witness :
    attribute_access wServer wEntity "uuid" = (.ok (.strV "u1"), wEntity) ∧
    attribute_access wServer wEntity "manager" =
      ((getattr wServer wEntity "manager").1.map AttrValue.detailV,
       (getattr wServer wEntity "manager").2) := by
  have h := C10_attribute_resolution Nat wServer wEntity
  exact ⟨h.1, h.2.2.2.2.2.2.2.2.2.2.2.2.2 "manager" (by decide)⟩

end MoApi
